import Mathlib

set_option maxHeartbeats 1000000

/-!
Verification development for the chip8vm repository: a shallow embedding of
the CHIP-8 interpreter (`src/interpreter.rs`), of the two-pass assembler
(`src/assembler.rs` with its `statement`, `instructions` and `directives`
modules) and of the disassembler (`src/bin/disassembler.rs`), together with
theorems settling the specification's claims about them.

Machine integers are modelled as `Nat` with explicit `% 2^w` wherever the
Rust code wraps; fallible code returns `Option`/`Except`, with `none`
standing for a Rust panic.
-/

namespace Chip8

namespace Interpreter

/-- `DISPLAY_WIDTH`: the width of the display in pixels. -/
def DISPLAY_WIDTH : Nat := 64

/-- `DISPLAY_HEIGHT`: the height of the display in pixels. -/
def DISPLAY_HEIGHT : Nat := 32

/-- Machine state of the virtual machine (struct `VM` in `interpreter.rs`).
The SDL collaborators of the Rust struct (`event_pump`, `canvas`,
`texture`, `audio_device`) are host resources, not machine state, and are
abstracted by explicit parameters where the code consults them.  Arrays are
modelled as total functions from indices; only indices below the Rust
array length are ever read or written by the operations below. -/
structure VM where
  running : Bool
  /-- `ram: [u8; 4096]` -/
  ram : Nat → Nat
  /-- `pc: usize` -/
  pc : Nat
  /-- `reg: [u8; 16]` -/
  reg : Nat → Nat
  /-- `reg_i: u16` -/
  reg_i : Nat
  /-- `stack: [u16; 16]` -/
  stack : Nat → Nat
  /-- `sp: usize` -/
  sp : Nat
  delay_timer : Nat
  sound_timer : Nat
  waiting_for_key : Option Nat
  /-- `display: [[u8; DISPLAY_WIDTH]; DISPLAY_HEIGHT]`, row-major: `display y x` -/
  display : Nat → Nat → Nat

/-- Point update of a one-dimensional array modelled as a function. -/
def upd (a : Nat → Nat) (i v : Nat) : Nat → Nat :=
  fun j => if j = i then v else a j

/-- Point update of the two-dimensional display array. -/
def upd2 (d : Nat → Nat → Nat) (y x v : Nat) : Nat → Nat → Nat :=
  fun j i => if j = y ∧ i = x then v else d j i

/-- `VM::push`.  `none` models the index-out-of-bounds panic of
`self.stack[self.sp]` on a full stack. -/
def push (vm : VM) (value : Nat) : Option VM :=
  if vm.sp < 16 then
    some { vm with stack := upd vm.stack vm.sp value, sp := vm.sp + 1 }
  else none

/-- `VM::pop`.  `none` models the usize-underflow panic of `self.sp -= 1`
on an empty stack (and the unreachable index panic for `sp > 16`). -/
def pop (vm : VM) : Option (Nat × VM) :=
  if vm.sp = 0 then none
  else if vm.sp - 1 < 16 then some (vm.stack (vm.sp - 1), { vm with sp := vm.sp - 1 })
  else none

/-- `VM::fetch`.  `none` models the RAM index panic when `pc + 1` is past
the end of RAM. -/
def fetch (vm : VM) : Option (Nat × VM) :=
  if vm.pc + 1 < 4096 then
    some ((vm.ram vm.pc <<< 8) ||| vm.ram (vm.pc + 1), { vm with pc := vm.pc + 2 })
  else none

/-- `VM::clear_screen` (its `render_display` call is a host side effect). -/
def clear_screen (vm : VM) : VM :=
  { vm with display := fun _ _ => 0 }

/-- The inner `for bit in 0..8` loop of `VM::draw_sprite`, processing the
listed bit indices in order over the accumulated `(display, reg[0xF])`
pair; a pixel past the right edge breaks out of the loop. -/
def draw_sprite_bits (sprite_byte x y_coord : Nat) :
    List Nat → (Nat → Nat → Nat) × Nat → (Nat → Nat → Nat) × Nat
  | [], acc => acc
  | bit :: rest, (display, vf) =>
    let x_coord := x + bit
    if DISPLAY_WIDTH ≤ x_coord then (display, vf)
    else
      let sprite_pixel := if (sprite_byte >>> (7 - bit)) &&& 1 = 0 then 0 else 0xFF
      let screen_pixel := display y_coord x_coord
      let vf := if screen_pixel = 1 ∧ sprite_pixel = 1 then 1 else vf
      draw_sprite_bits sprite_byte x y_coord rest
        (upd2 display y_coord x_coord (screen_pixel ^^^ sprite_pixel), vf)

/-- The outer `for byte in 0..n` loop of `VM::draw_sprite`; a row past the
bottom edge breaks out, and `none` models the panic of
`self.ram[self.reg_i as usize + byte as usize]` indexing past RAM. -/
def draw_sprite_rows (ram : Nat → Nat) (reg_i x y : Nat) :
    List Nat → (Nat → Nat → Nat) × Nat → Option ((Nat → Nat → Nat) × Nat)
  | [], acc => some acc
  | byte :: rest, (display, vf) =>
    let y_coord := y + byte
    if DISPLAY_HEIGHT ≤ y_coord then some (display, vf)
    else if 4096 ≤ reg_i + byte then none
    else
      let sprite_byte := ram (reg_i + byte)
      draw_sprite_rows ram reg_i x y rest
        (draw_sprite_bits sprite_byte x y_coord (List.range 8) (display, vf))

/-- `VM::draw_sprite`.  The function first zeroes `reg[0xF]`, may raise it
to 1 inside the loops, and touches no other register, so the register file
is written back once with the final flag value; `render_display` is a host
side effect. -/
def draw_sprite (vm : VM) (x y n : Nat) : Option VM :=
  let x := x % DISPLAY_WIDTH
  let y := y % DISPLAY_HEIGHT
  match draw_sprite_rows vm.ram vm.reg_i x y (List.range n) (vm.display, 0) with
  | some (display, vf) => some { vm with display := display, reg := upd vm.reg 0xF vf }
  | none => none

/-- `VM::is_key_pressed` composed with `VM::chip8_key_to_scancode`: the host
keyboard state is abstracted by `keys`, and `none` models the `panic!` in
`chip8_key_to_scancode` on a key value outside `0x0..=0xF`. -/
def is_key_pressed (keys : Nat → Bool) (chip8_key : Nat) : Option Bool :=
  if chip8_key < 16 then some (keys chip8_key) else none

/-- The `for i in 0..=x` loop of opcode `Fx55`; `none` models the RAM store
panic when `reg_i` has run past the end of RAM. -/
def fx55_go (vm : VM) : List Nat → Option VM
  | [] => some vm
  | i :: rest =>
    if vm.reg_i < 4096 then
      fx55_go { vm with ram := upd vm.ram vm.reg_i (vm.reg i),
                        reg_i := (vm.reg_i + 1) % 65536 } rest
    else none

/-- The `for i in 0..=x` loop of opcode `Fx65`; `none` models the RAM load
panic when `reg_i` has run past the end of RAM. -/
def fx65_go (vm : VM) : List Nat → Option VM
  | [] => some vm
  | i :: rest =>
    if vm.reg_i < 4096 then
      fx65_go { vm with reg := upd vm.reg i (vm.ram vm.reg_i),
                        reg_i := (vm.reg_i + 1) % 65536 } rest
    else none

/-- `VM::execute`.  The host keyboard is abstracted by `keys` and the byte
drawn by `rand::random::<u8>()` in `Cxnn` by `rand`; `none` models a Rust
panic (the explicit `panic!` for `0nnn`, or an out-of-bounds array
access). -/
def execute (keys : Nat → Bool) (rand : Nat) (vm : VM) (opcode : Nat) : Option VM :=
  let nnn := opcode &&& 0x0FFF
  let nn := opcode &&& 0x00FF
  let n := opcode &&& 0x000F
  let x := (opcode &&& 0x0F00) >>> 8
  let y := (opcode &&& 0x00F0) >>> 4
  match opcode &&& 0xF000 with
  | 0x0000 =>
    match opcode with
    | 0x00E0 => some (clear_screen vm)
    | 0x00EE =>
      match pop vm with
      | some (value, vm) => some { vm with pc := value }
      | none => none
    | _ => none
  | 0x1000 => some { vm with pc := nnn }
  | 0x2000 =>
    match push vm (vm.pc % 65536) with
    | some vm => some { vm with pc := nnn }
    | none => none
  | 0x3000 => some (if vm.reg x = nn then { vm with pc := vm.pc + 2 } else vm)
  | 0x4000 => some (if vm.reg x ≠ nn then { vm with pc := vm.pc + 2 } else vm)
  | 0x5000 => some (if vm.reg x = vm.reg y then { vm with pc := vm.pc + 2 } else vm)
  | 0x6000 => some { vm with reg := upd vm.reg x nn }
  | 0x7000 => some { vm with reg := upd vm.reg x ((vm.reg x + nn) % 256) }
  | 0x8000 =>
    match opcode &&& 0x000F with
    | 0x0 => some { vm with reg := upd vm.reg x (vm.reg y) }
    | 0x1 =>
      let vm := { vm with reg := upd vm.reg x (vm.reg x ||| vm.reg y) }
      some { vm with reg := upd vm.reg 0xF 0 }
    | 0x2 =>
      let vm := { vm with reg := upd vm.reg x (vm.reg x &&& vm.reg y) }
      some { vm with reg := upd vm.reg 0xF 0 }
    | 0x3 =>
      let vm := { vm with reg := upd vm.reg x (vm.reg x ^^^ vm.reg y) }
      some { vm with reg := upd vm.reg 0xF 0 }
    | 0x4 =>
      let result := (vm.reg x + vm.reg y) % 256
      let carry := 256 ≤ vm.reg x + vm.reg y
      let vm := { vm with reg := upd vm.reg x result }
      some { vm with reg := upd vm.reg 0xF (if carry then 1 else 0) }
    | 0x5 =>
      let result := (vm.reg x + 256 - vm.reg y) % 256
      let borrow := vm.reg x < vm.reg y
      let vm := { vm with reg := upd vm.reg x result }
      some { vm with reg := upd vm.reg 0xF (if borrow then 0 else 1) }
    | 0x6 =>
      let vm := { vm with reg := upd vm.reg x (vm.reg y) }
      if x = 0xF then
        some { vm with reg := upd vm.reg x (vm.reg x &&& 0x1) }
      else
        let vm := { vm with reg := upd vm.reg 0xF (vm.reg x &&& 0x1) }
        some { vm with reg := upd vm.reg x (vm.reg x >>> 1) }
    | 0x7 =>
      let result := (vm.reg y + 256 - vm.reg x) % 256
      let borrow := vm.reg y < vm.reg x
      let vm := { vm with reg := upd vm.reg x result }
      some { vm with reg := upd vm.reg 0xF (if borrow then 0 else 1) }
    | 0xE =>
      let vm := { vm with reg := upd vm.reg x (vm.reg y) }
      let vm := { vm with reg := upd vm.reg 0xF ((vm.reg x &&& 0x80) >>> 7) }
      if x ≠ 0xF then
        some { vm with reg := upd vm.reg x ((vm.reg x <<< 1) % 256) }
      else some vm
    | _ => some vm
  | 0x9000 => some (if vm.reg x ≠ vm.reg y then { vm with pc := vm.pc + 2 } else vm)
  | 0xA000 => some { vm with reg_i := nnn }
  | 0xB000 => some { vm with pc := nnn + vm.reg 0 }
  | 0xC000 => some { vm with reg := upd vm.reg x (rand &&& nn) }
  | 0xD000 => draw_sprite vm (vm.reg x) (vm.reg y) n
  | 0xE000 =>
    match opcode &&& 0x00FF with
    | 0x9E =>
      match is_key_pressed keys (vm.reg x) with
      | some true => some { vm with pc := vm.pc + 2 }
      | some false => some vm
      | none => none
    | 0xA1 =>
      match is_key_pressed keys (vm.reg x) with
      | some false => some { vm with pc := vm.pc + 2 }
      | some true => some vm
      | none => none
    | _ => some vm
  | 0xF000 =>
    match opcode &&& 0x00FF with
    | 0x07 => some { vm with reg := upd vm.reg x vm.delay_timer }
    | 0x0A => some { vm with waiting_for_key := some x }
    | 0x15 => some { vm with delay_timer := vm.reg x }
    | 0x18 => some { vm with sound_timer := vm.reg x }
    | 0x1E => some { vm with reg_i := (vm.reg_i + vm.reg x) % 65536 }
    | 0x29 => some { vm with reg_i := vm.reg x * 5 }
    | 0x33 =>
      if vm.reg_i + 2 < 4096 then
        let ram := upd vm.ram vm.reg_i (vm.reg x / 100)
        let ram := upd ram (vm.reg_i + 1) ((vm.reg x / 10) % 10)
        let ram := upd ram (vm.reg_i + 2) (vm.reg x % 10)
        some { vm with ram := ram }
      else none
    | 0x55 => fx55_go vm (List.range (x + 1))
    | 0x65 => fx65_go vm (List.range (x + 1))
    | _ => some vm
  | _ => some vm

/-- `VM::load_program`; `none` models the slice-index panic when the
program does not fit in `ram[0x200..4096]`. -/
def load_program (vm : VM) (program : List Nat) : Option VM :=
  if 0x200 + program.length ≤ 4096 then
    some { vm with ram := (fun i =>
      if 0x200 ≤ i ∧ i < 0x200 + program.length then program.getD (i - 0x200) 0
      else vm.ram i) }
  else none

/-- The SDL scancodes the interpreter inspects: the sixteen keypad keys of
`scancode_to_chip8_key`, the quit key, and a stand-in for every other
scancode. -/
inductive Scancode where
  | num1 | num2 | num3 | num4
  | q | w | e | r
  | a | s | d | f
  | z | x | c | v
  | escape
  | unmapped
deriving DecidableEq

/-- `VM::scancode_to_chip8_key`. -/
def scancode_to_chip8_key : Scancode → Option Nat
  | .num1 => some 0x1
  | .num2 => some 0x2
  | .num3 => some 0x3
  | .num4 => some 0xC
  | .q => some 0x4
  | .w => some 0x5
  | .e => some 0x6
  | .r => some 0xD
  | .a => some 0x7
  | .s => some 0x8
  | .d => some 0x9
  | .f => some 0xE
  | .z => some 0xA
  | .x => some 0x0
  | .c => some 0xB
  | .v => some 0xF
  | _ => none

/-- The SDL events `VM::mainloop` inspects: key presses and releases carry
an optional scancode; every other event is `other`. -/
inductive Event where
  | keyDown (scancode : Option Scancode)
  | keyUp (scancode : Option Scancode)
  | other

/-- The body of the `for event in self.event_pump.poll_iter()` loop in
`VM::mainloop`.  The register index held in `waiting_for_key` is only ever
set by opcode `Fx0A` and is therefore below 16, so the register write
cannot fault. -/
def process_event (vm : VM) (event : Event) : VM :=
  let vm :=
    match event with
    | .keyDown (some .escape) => { vm with running := false }
    | _ => vm
  match event with
  | .keyUp (some scancode) =>
    match vm.waiting_for_key with
    | some register =>
      match scancode_to_chip8_key scancode with
      | some chip8_key =>
        { vm with reg := upd vm.reg register chip8_key, waiting_for_key := none }
      | none => vm
    | none => vm
  | _ => vm

/-- The 60 Hz timer update at the top of `VM::mainloop` (the audio-gate
volume writes are host side effects on the audio device). -/
def timer_update (vm : VM) : VM :=
  let vm := if 0 < vm.delay_timer then { vm with delay_timer := vm.delay_timer - 1 } else vm
  if 1 ≤ vm.sound_timer then { vm with sound_timer := vm.sound_timer - 1 } else vm

/-- One iteration of the `while self.running` loop of `VM::mainloop`.
`timer_elapsed` abstracts the wall-clock test against `last_timer_update`,
`events` is the batch drained from the SDL event pump this iteration, and
the trailing sleep is host-side pacing with no effect on the machine
state. -/
def mainloop_iteration (keys : Nat → Bool) (rand : Nat) (timer_elapsed : Bool)
    (events : List Event) (vm : VM) : Option VM :=
  let vm := if timer_elapsed then timer_update vm else vm
  let vm := events.foldl process_event vm
  if vm.waiting_for_key.isSome then some vm
  else
    match fetch vm with
    | some (opcode, vm) => execute keys rand vm opcode
    | none => none

/-- The keypad key, if any, whose release one SDL event reports. -/
def event_release (event : Event) : Option Nat :=
  match event with
  | Event.keyUp (some scancode) => scancode_to_chip8_key scancode
  | _ => none

/-- The first key-release event in a batch whose scancode maps to a keypad
key: the event on which a pending `Fx0A` wait resolves. -/
def first_release (events : List Event) : Option Nat :=
  events.findSome? event_release

/-! ### Concrete machine states for counterexamples and witnesses -/

/-- An all-idle host keyboard. -/
def keys0 : Nat → Bool := fun _ => false

/-- A concrete machine state: the one-row sprite byte `0x80` at `0x200`,
`I = 0x200`, and the display pixel (0, 0) lit with the on-value `0xFF`
that sprite drawing produces. -/
def vm_pixel_on : VM where
  running := true
  ram := fun i => if i = 0x200 then 0x80 else 0
  pc := 0x200
  reg := fun _ => 0
  reg_i := 0x200
  stack := fun _ => 0
  sp := 0
  delay_timer := 0
  sound_timer := 0
  waiting_for_key := none
  display := fun y x => if y = 0 ∧ x = 0 then 0xFF else 0

/-- The same machine with a fully dark display. -/
def vm_dark : VM := { vm_pixel_on with display := fun _ _ => 0 }

/-- A machine with `VF = 5` and `V0 = 5`, for exercising `8F04`. -/
def vm_add_alias : VM :=
  { vm_dark with reg := fun i => if i = 0xF then 5 else if i = 0 then 5 else 0 }

end Interpreter

namespace Assembler

/-! Shallow embedding of the two-pass assembler: `src/assembler.rs` with
its `statement.rs`, `instructions.rs`, `directives.rs` and
`codegen_utils.rs` modules, and of `decode_instruction`/`disassemble`
from `src/bin/disassembler.rs`. -/

/-- Struct `TokenSpan`: a span of text in the source code, used to
underline errors.  The Rust field `end` is a Lean keyword and is named
`stop` here.  Spans count bytes in the Rust regex; all inputs considered
here are ASCII, where byte and character offsets coincide. -/
structure TokenSpan where
  start : Nat
  stop : Nat
deriving DecidableEq

/-- Enum `assembler::Error`, with the same constructors and payloads. -/
inductive Error where
  | UnknownInstruction (instruction : String) (instruction_span : TokenSpan)
      (line_number : Nat) (line : String)
  | InvalidArgument (argument : String) (argument_span : TokenSpan)
      (line_number : Nat) (line : String)
  | InvalidArgumentCount (instruction : String) (n_arguments : Nat)
      (expected : List Nat) (extra_argument_spans : List TokenSpan)
      (line_number : Nat) (line : String)
  | UserError (message : String) (line_number : Nat) (line : String)
  | ReadError (path : String)
  | IncludeError (path : String) (error : Error) (line_number : Nat) (line : String)
  | ArgumentOverflow (argument : Nat) (argument_span : TokenSpan)
      (expected_n_bits : Nat) (line_number : Nat) (line : String)
  | InvalidArgumentIndex (requested_index : Nat) (n_arguments : Nat)
deriving DecidableEq

/-- Predicate used by the claims: is an error an `ArgumentOverflow`? -/
def Error.is_argument_overflow : Error → Bool
  | Error.ArgumentOverflow _ _ _ _ _ => true
  | _ => false

/-- Type alias `OpcodeAddress = u16` and `SymbolTable = HashMap<String,
OpcodeAddress>`, the map modelled as an association list with the newest
binding first (so `insert` shadows like `HashMap::insert`). -/
abbrev SymbolTable : Type := List (String × Nat)

/-- `HashMap::insert` on the symbol table. -/
def SymbolTable.insert (table : SymbolTable) (key : String) (value : Nat) :
    SymbolTable :=
  (key, value) :: table

/-- `HashMap::get` on the symbol table. -/
def SymbolTable.get (table : SymbolTable) (key : String) : Option Nat :=
  (List.find? (fun p => p.1 == key) table).map Prod.snd

/-- Method `char::to_digit(radix)`. -/
def char_to_digit (radix : Nat) (c : Char) : Option Nat :=
  let v :=
    if '0' ≤ c ∧ c ≤ '9' then some (c.toNat - '0'.toNat)
    else if 'a' ≤ c ∧ c ≤ 'z' then some (c.toNat - 'a'.toNat + 10)
    else if 'A' ≤ c ∧ c ≤ 'Z' then some (c.toNat - 'A'.toNat + 10)
    else none
  match v with
  | some v => if v < radix then some v else none
  | none => none

/-- Digit-accumulation loop of `u16::from_str_radix`: fails on an invalid
digit or when the accumulated value overflows `u16::MAX`. -/
def from_str_radix_go (radix : Nat) : List Char → Nat → Option Nat
  | [], acc => some acc
  | c :: cs, acc =>
    match char_to_digit radix c with
    | none => none
    | some d =>
      let acc := acc * radix + d
      if 65535 < acc then none else from_str_radix_go radix cs acc

/-- Function `u16::from_str_radix` (for radix 10 this is also
`str::parse::<u16>`): an optional leading `+`, then at least one digit in
the given radix, rejecting values above `u16::MAX`. -/
def from_str_radix (radix : Nat) (s : String) : Option Nat :=
  match s.toList with
  | [] => none
  | '+' :: rest => if rest.isEmpty then none else from_str_radix_go radix rest 0
  | cs => from_str_radix_go radix cs 0

/-- Method `str::trim_matches(c)`: strip every leading and trailing
occurrence of `c`. -/
def trim_matches (s : String) (c : Char) : String :=
  (((s.toList.dropWhile (fun d => d = c)).reverse.dropWhile
      (fun d => d = c)).reverse).asString

/-- Method `str::trim_end_matches(c)`. -/
def trim_end_matches (s : String) (c : Char) : String :=
  ((s.toList.reverse.dropWhile (fun d => d = c)).reverse).asString

/-- Method `str::trim`: strip leading and trailing whitespace. -/
def trim (s : String) : String :=
  (((s.toList.dropWhile Char.isWhitespace).reverse.dropWhile
      Char.isWhitespace).reverse).asString

/-- Method `str::starts_with`. -/
def starts_with (s pre : String) : Bool :=
  pre.toList.isPrefixOf s.toList

/-- Method `str::ends_with`. -/
def ends_with (s suf : String) : Bool :=
  suf.toList.reverse.isPrefixOf s.toList.reverse

/-- Method `char::to_uppercase`, restricted to ASCII — all the mnemonics
and directives the assembler compares against are ASCII, and Rust leaves
caseless characters unchanged just as the fallback branch does. -/
def char_to_upper (c : Char) : Char :=
  if 'a' ≤ c ∧ c ≤ 'z' then Char.ofNat (c.toNat - 32) else c

/-- Method `str::to_uppercase` (ASCII, see `char_to_upper`). -/
def to_upper (s : String) : String :=
  (s.toList.map char_to_upper).asString

/-- Everything before the first occurrence of a character:
`str::splitn(2, c).next()`. -/
def before_char (cs : List Char) (c : Char) : List Char :=
  cs.takeWhile (fun d => ¬ d = c)

/-- Split a character list at every occurrence of a separator. -/
def split_char : List Char → Char → List (List Char)
  | [], _ => [[]]
  | c :: cs, sep =>
    if c = sep then [] :: split_char cs sep
    else
      match split_char cs sep with
      | [] => [[c]]
      | group :: rest => (c :: group) :: rest

/-- Method `str::lines`: split on newlines, a trailing newline producing
no extra empty line (`\r\n` line endings are not modelled; all sources
considered here use `\n`). -/
def lines (s : String) : List String :=
  if s.toList.isEmpty then []
  else
    let parts := split_char s.toList '\n'
    let parts := if s.toList.getLast? = some '\n' then parts.dropLast else parts
    parts.map List.asString

/-- Struct `Statement`: an instruction or directive lexed into separate
arguments. -/
structure Statement where
  instruction : String
  instruction_span : TokenSpan
  arguments : List String
  argument_spans : List TokenSpan
  line_number : Nat
  line : String

/-- Method `Statement::n_arguments`. -/
def Statement.n_arguments (st : Statement) : Nat :=
  st.arguments.length

/-- Method `Statement::argument`. -/
def Statement.argument (st : Statement) (argument_index : Nat) :
    Except Error String :=
  match st.arguments.get? argument_index with
  | some a => Except.ok a
  | none => Except.error (Error.InvalidArgumentIndex argument_index st.arguments.length)

/-- Method `Statement::invalid_argument`.  The Rust code indexes
`self.arguments[argument_index]` directly and is only called with an index
that `argument` has already validated; `getD` supplies an (unreachable)
default. -/
def Statement.invalid_argument (st : Statement) (argument_index : Nat) : Error :=
  Error.InvalidArgument (st.arguments.getD argument_index "")
    (st.argument_spans.getD argument_index ⟨0, 0⟩) st.line_number st.line

/-- Method `Statement::invalid_argument_count`. -/
def Statement.invalid_argument_count (st : Statement) (n_arguments : Nat)
    (expected : List Nat) : Error :=
  let max_expected := expected.foldl max 0
  let extra_argument_spans := st.argument_spans.drop max_expected
  Error.InvalidArgumentCount st.instruction n_arguments expected
    extra_argument_spans st.line_number st.line

/-- Method `Statement::assert_n_arguments`. -/
def Statement.assert_n_arguments (st : Statement) (n : Nat) : Except Error Unit :=
  if st.arguments.length ≠ n then
    Except.error (st.invalid_argument_count st.arguments.length [n])
  else Except.ok ()

/-- The numeric grammar of `Statement::parse_number`: `0x…` hex, `0b…`
binary, otherwise decimal, each parsed as a Rust `u16`. -/
def parse_number_literal (lexeme : String) : Option Nat :=
  if starts_with lexeme "0x" then from_str_radix 16 (lexeme.drop 2)
  else if starts_with lexeme "0b" then from_str_radix 2 (lexeme.drop 2)
  else from_str_radix 10 lexeme

/-- Method `Statement::parse_number`. -/
def Statement.parse_number (st : Statement) (argument_index max_n_bits : Nat) :
    Except Error Nat :=
  match st.argument argument_index with
  | Except.error e => Except.error e
  | Except.ok lexeme =>
    match parse_number_literal lexeme with
    | some num =>
      let max := 65535 >>> (16 - max_n_bits)
      if max < num then
        Except.error (Error.ArgumentOverflow num
          (st.argument_spans.getD argument_index ⟨0, 0⟩) max_n_bits
          st.line_number st.line)
      else Except.ok num
    | none => Except.error (st.invalid_argument argument_index)

/-- Method `Statement::parse_register`: exactly `V` followed by one hex
digit. -/
def Statement.parse_register (st : Statement) (argument_index : Nat) :
    Except Error Nat :=
  match st.argument argument_index with
  | Except.error e => Except.error e
  | Except.ok lexeme =>
    if lexeme.length = 2 ∧ starts_with lexeme "V" then
      match char_to_digit 16 (lexeme.toList.getD 1 ' ') with
      | some register => Except.ok register
      | none => Except.error (st.invalid_argument argument_index)
    else Except.error (st.invalid_argument argument_index)

/-- Method `Statement::parse_only_two_registers`. -/
def Statement.parse_only_two_registers (st : Statement) :
    Except Error (Nat × Nat) := do
  st.assert_n_arguments 2
  let x ← st.parse_register 0
  let y ← st.parse_register 1
  return (x, y)

/-- Method `Statement::parse_label`: the stored ROM-relative address plus
the `0x200` loader offset. -/
def Statement.parse_label (st : Statement) (argument_index : Nat)
    (symbol_table : SymbolTable) : Except Error Nat :=
  match st.argument argument_index with
  | Except.error e => Except.error e
  | Except.ok lexeme =>
    match symbol_table.get lexeme with
    | some address => Except.ok (address + 0x200)
    | none => Except.error (st.invalid_argument argument_index)

/-- Method `Statement::parse_addr_or_label`: a 12-bit number first, then a
label. -/
def Statement.parse_addr_or_label (st : Statement) (argument_index : Nat)
    (symbol_table : SymbolTable) : Except Error Nat :=
  match st.parse_number argument_index 12 with
  | Except.ok v => Except.ok v
  | Except.error _ => st.parse_label argument_index symbol_table

/-- Method `Statement::parse_string`. -/
def Statement.parse_string (st : Statement) (argument_index : Nat) :
    Except Error String :=
  match st.argument argument_index with
  | Except.error e => Except.error e
  | Except.ok lexeme => Except.ok (trim_matches lexeme '"')

/-- Macro `split_u16!` from `codegen_utils.rs`: the big-endian byte pair
of a `u16` value (`as u8` casts truncate). -/
def split_u16 (val : Nat) : List Nat :=
  [(val >>> 8) % 256, val % 256]

/-! Emitters from `instructions.rs`. -/

/-- Emitter `cls`. -/
def cls (statement : Statement) : Except Error (List Nat) := do
  statement.assert_n_arguments 0
  return split_u16 0x00E0

/-- Emitter `ret`. -/
def ret (statement : Statement) : Except Error (List Nat) := do
  statement.assert_n_arguments 0
  return split_u16 0x00EE

/-- Emitter `sys`. -/
def sys (statement : Statement) (symbol_table : SymbolTable) :
    Except Error (List Nat) := do
  statement.assert_n_arguments 1
  return split_u16 (0x0000 ||| (← statement.parse_addr_or_label 0 symbol_table))

/-- Emitter `jp`. -/
def jp (statement : Statement) (symbol_table : SymbolTable) :
    Except Error (List Nat) :=
  match statement.n_arguments with
  | 1 => do
    return split_u16 (0x1000 ||| (← statement.parse_addr_or_label 0 symbol_table))
  | 2 => do
    let register ← statement.parse_register 0
    let address ← statement.parse_addr_or_label 1 symbol_table
    if register ≠ 0 then
      Except.error (statement.invalid_argument 0)
    else
      return split_u16 (0xB000 ||| address)
  | _ => Except.error (statement.invalid_argument_count statement.n_arguments [1, 2])

/-- Emitter `call`. -/
def call (statement : Statement) (symbol_table : SymbolTable) :
    Except Error (List Nat) := do
  statement.assert_n_arguments 1
  return split_u16 (0x2000 ||| (← statement.parse_addr_or_label 0 symbol_table))

/-- Emitter `se`. -/
def se (statement : Statement) : Except Error (List Nat) := do
  statement.assert_n_arguments 2
  let x ← statement.parse_register 0
  match statement.parse_number 1 8 with
  | Except.ok byte => return split_u16 (0x3000 ||| (x <<< 8) ||| byte)
  | Except.error _ => do
    let y ← statement.parse_register 1
    return split_u16 (0x5000 ||| (x <<< 8) ||| (y <<< 4))

/-- Emitter `sne`. -/
def sne (statement : Statement) : Except Error (List Nat) := do
  statement.assert_n_arguments 2
  let x ← statement.parse_register 0
  match statement.parse_number 1 8 with
  | Except.ok byte => return split_u16 (0x4000 ||| (x <<< 8) ||| byte)
  | Except.error _ => do
    let y ← statement.parse_register 1
    return split_u16 (0x9000 ||| (x <<< 8) ||| (y <<< 4))

/-- Emitter `ld`, dispatching on the special keywords before the
register/immediate forms. -/
def ld (statement : Statement) (symbol_table : SymbolTable) :
    Except Error (List Nat) := do
  statement.assert_n_arguments 2
  let address := statement.parse_addr_or_label 1 symbol_table
  let x := statement.parse_register 0
  let y := statement.parse_register 1
  match (← statement.argument 0) with
  | "I" => return split_u16 (0xA000 ||| (← address))
  | "DT" => return split_u16 (0xF015 ||| ((← y) <<< 8))
  | "ST" => return split_u16 (0xF018 ||| ((← y) <<< 8))
  | "F" => return split_u16 (0xF029 ||| ((← y) <<< 8))
  | "B" => return split_u16 (0xF033 ||| ((← y) <<< 8))
  | "[I]" => return split_u16 (0xF055 ||| ((← y) <<< 8))
  | _ => do
    let x ← x
    match (← statement.argument 1) with
    | "DT" => return split_u16 (0xF007 ||| (x <<< 8))
    | "K" => return split_u16 (0xF00A ||| (x <<< 8))
    | "[I]" => return split_u16 (0xF065 ||| (x <<< 8))
    | _ =>
      match statement.parse_number 1 8 with
      | Except.ok byte => return split_u16 (0x6000 ||| (x <<< 8) ||| byte)
      | Except.error _ => return split_u16 (0x8000 ||| (x <<< 8) ||| ((← y) <<< 4))

/-- Emitter `add`. -/
def add (statement : Statement) : Except Error (List Nat) := do
  statement.assert_n_arguments 2
  if (← statement.argument 0) = "I" then
    let x ← statement.parse_register 1
    return split_u16 (0xF01E ||| (x <<< 8))
  else
    let x ← statement.parse_register 0
    match statement.parse_number 1 8 with
    | Except.ok byte => return split_u16 (0x7000 ||| (x <<< 8) ||| byte)
    | Except.error _ => do
      let y ← statement.parse_register 1
      return split_u16 (0x8004 ||| (x <<< 8) ||| (y <<< 4))

/-- Emitter `sub`. -/
def sub (statement : Statement) : Except Error (List Nat) := do
  let (x, y) ← statement.parse_only_two_registers
  return split_u16 (0x8005 ||| (x <<< 8) ||| (y <<< 4))

/-- Emitter `subn`. -/
def subn (statement : Statement) : Except Error (List Nat) := do
  let (x, y) ← statement.parse_only_two_registers
  return split_u16 (0x8007 ||| (x <<< 8) ||| (y <<< 4))

/-- Emitter `or`. -/
def or (statement : Statement) : Except Error (List Nat) := do
  let (x, y) ← statement.parse_only_two_registers
  return split_u16 (0x8001 ||| (x <<< 8) ||| (y <<< 4))

/-- Emitter `and`. -/
def and (statement : Statement) : Except Error (List Nat) := do
  let (x, y) ← statement.parse_only_two_registers
  return split_u16 (0x8002 ||| (x <<< 8) ||| (y <<< 4))

/-- Emitter `xor`. -/
def xor (statement : Statement) : Except Error (List Nat) := do
  let (x, y) ← statement.parse_only_two_registers
  return split_u16 (0x8003 ||| (x <<< 8) ||| (y <<< 4))

/-- Emitter `shr`: `SHR Vx, Vy` takes exactly two registers. -/
def shr (statement : Statement) : Except Error (List Nat) := do
  let (x, y) ← statement.parse_only_two_registers
  return split_u16 (0x8006 ||| (x <<< 8) ||| (y <<< 4))

/-- Emitter `shl`: `SHL Vx, Vy` takes exactly two registers. -/
def shl (statement : Statement) : Except Error (List Nat) := do
  let (x, y) ← statement.parse_only_two_registers
  return split_u16 (0x800E ||| (x <<< 8) ||| (y <<< 4))

/-- Emitter `rnd`. -/
def rnd (statement : Statement) : Except Error (List Nat) := do
  statement.assert_n_arguments 2
  let x ← statement.parse_register 0
  let byte ← statement.parse_number 1 8
  return split_u16 (0xC000 ||| (x <<< 8) ||| byte)

/-- Emitter `drw`. -/
def drw (statement : Statement) : Except Error (List Nat) := do
  statement.assert_n_arguments 3
  let x ← statement.parse_register 0
  let y ← statement.parse_register 1
  let nibble ← statement.parse_number 2 4
  return split_u16 (0xD000 ||| (x <<< 8) ||| (y <<< 4) ||| nibble)

/-- Emitter `skp`. -/
def skp (statement : Statement) : Except Error (List Nat) := do
  statement.assert_n_arguments 1
  let x ← statement.parse_register 0
  return split_u16 (0xE09E ||| (x <<< 8))

/-- Emitter `sknp`. -/
def sknp (statement : Statement) : Except Error (List Nat) := do
  statement.assert_n_arguments 1
  let x ← statement.parse_register 0
  return split_u16 (0xE0A1 ||| (x <<< 8))

/-! Emitters from `directives.rs`. -/

/-- Directive `.byte`/`.db` (the parsed number is cast `as u8`). -/
def byte (statement : Statement) : Except Error (List Nat) := do
  statement.assert_n_arguments 1
  return [(← statement.parse_number 0 8) % 256]

/-- Directive `.word`/`.dw`. -/
def word (statement : Statement) : Except Error (List Nat) := do
  statement.assert_n_arguments 1
  return split_u16 (← statement.parse_number 0 16)

/-- Directive `.text`/`.ascii`: the UTF-8 bytes of the unquoted string. -/
def text (statement : Statement) : Except Error (List Nat) := do
  return (← statement.parse_string 0).toUTF8.toList.map (fun b => b.toNat)

/-- Directive `.fill` (the fill byte is cast `as u8`). -/
def fill (statement : Statement) : Except Error (List Nat) := do
  statement.assert_n_arguments 2
  let n ← statement.parse_number 0 16
  let b ← statement.parse_number 1 8
  return List.replicate n (b % 256)

/-- Directive `.space`. -/
def space (statement : Statement) : Except Error (List Nat) := do
  statement.assert_n_arguments 1
  return List.replicate (← statement.parse_number 0 16) 0

/-- Directive `.include`: `assemble_from_file` performs host file IO; the
embedding has no file system, so the nested read fails with `ReadError`
exactly as it does for an unreadable file, and `_include` wraps that in
`IncludeError`. -/
def _include (statement : Statement) : Except Error (List Nat) := do
  let path ← statement.parse_string 0
  Except.error (Error.IncludeError path (Error.ReadError path)
    statement.line_number statement.line)

/-- Directive `.warn`: prints a warning (a host side effect) and emits no
bytes. -/
def warn (statement : Statement) : Except Error (List Nat) :=
  Except.ok []

/-- Directive `.error`. -/
def _error (statement : Statement) : Except Error (List Nat) :=
  Except.error (Error.UserError
    (match statement.parse_string 0 with
     | Except.ok m => m
     | Except.error _ => "<no message>")
    statement.line_number statement.line)

/-- Function `parse_statement`: dispatch on the upper-cased mnemonic. -/
def parse_statement (statement : Statement) (symbol_table : SymbolTable) :
    Except Error (List Nat) :=
  match to_upper statement.instruction with
  | "CLS" => cls statement
  | "RET" => ret statement
  | "SYS" => sys statement symbol_table
  | "JP" => jp statement symbol_table
  | "CALL" => call statement symbol_table
  | "SE" => se statement
  | "SNE" => sne statement
  | "LD" => ld statement symbol_table
  | "ADD" => add statement
  | "OR" => or statement
  | "AND" => and statement
  | "XOR" => xor statement
  | "SUB" => sub statement
  | "SHR" => shr statement
  | "SUBN" => subn statement
  | "SHL" => shl statement
  | "RND" => rnd statement
  | "DRW" => drw statement
  | "SKP" => skp statement
  | "SKNP" => sknp statement
  | ".BYTE" => byte statement
  | ".DB" => byte statement
  | ".WORD" => word statement
  | ".DW" => word statement
  | ".TEXT" => text statement
  | ".ASCII" => text statement
  | ".FILL" => fill statement
  | ".SPACE" => space statement
  | ".INCLUDE" => _include statement
  | ".WARN" => warn statement
  | ".ERROR" => _error statement
  | _ => Except.error (Error.UnknownInstruction statement.instruction
      statement.instruction_span statement.line_number statement.line)

/-- Function `preprocess`: drop everything from the first `;`, trim,
drop empty lines, re-join with newlines. -/
def preprocess (source : String) : String :=
  String.intercalate "\n"
    (((lines source).map (fun line => trim (before_char line.toList ';').asString)).filter
      (fun line => ¬ line.isEmpty))

/-- Index of the first `"` in a list of characters. -/
def quote_index : List Char → Option Nat
  | [] => none
  | c :: cs => if c = '"' then some 0 else (quote_index cs).map (fun n => n + 1)

/-- Lexer loop of `first_pass`: `find_iter` of the regex matching a
quoted string or a maximal run of non-comma, non-whitespace characters.
The alternation is leftmost-first, so at a `"` the quoted form is tried
first and a bareword (which may itself contain `"`) is the fallback when
no closing quote exists.  The structural `fuel` argument only bounds the
iteration count; every step consumes at least one character, so starting
the fuel at the character count (see `lex_line`) never cuts the scan
short. -/
def lex_line_go : Nat → List Char → Nat → List (String × TokenSpan)
  | 0, _, _ => []
  | _, [], _ => []
  | fuel + 1, c :: rest, i =>
    if c = ',' ∨ c.isWhitespace then lex_line_go fuel rest (i + 1)
    else if c = '"' then
      match quote_index rest with
      | some j =>
        let tok := '"' :: (rest.take j ++ ['"'])
        (tok.asString, TokenSpan.mk i (i + j + 2)) ::
          lex_line_go fuel (rest.drop (j + 1)) (i + j + 2)
      | none =>
        let tokRest := rest.takeWhile (fun d => ¬(d = ',' ∨ d.isWhitespace))
        ((c :: tokRest).asString, TokenSpan.mk i (i + 1 + tokRest.length)) ::
          lex_line_go fuel (rest.drop tokRest.length) (i + 1 + tokRest.length)
    else
      let tokRest := rest.takeWhile (fun d => ¬(d = ',' ∨ d.isWhitespace))
      ((c :: tokRest).asString, TokenSpan.mk i (i + 1 + tokRest.length)) ::
        lex_line_go fuel (rest.drop tokRest.length) (i + 1 + tokRest.length)

/-- The lexer over one line's characters, spans counted from `i`. -/
def lex_line (cs : List Char) (i : Nat) : List (String × TokenSpan) :=
  lex_line_go cs.length cs i

/-- Loop body of `first_pass` over the enumerated lines, carrying the
label table, the collected statements and the current ROM-relative
address.  `none` models the `lexemes[0]` panic on a line that lexes to no
token (such as a lone comma); the `u16` address arithmetic is modelled on
`Nat` (output sizes near 64 KiB are out of scope). -/
def first_pass_go :
    List (Nat × String) → SymbolTable → List Statement → Nat →
    Option (Except Error (SymbolTable × List Statement))
  | [], labels, unresolved, _ => some (Except.ok (labels, unresolved))
  | (line_index, line) :: rest, labels, unresolved, address =>
    if ends_with line ":" then
      first_pass_go rest (labels.insert (trim_end_matches line ':') address)
        unresolved address
    else
      match lex_line line.toList 0 with
      | [] => none
      | (lex0, span0) :: lexrest =>
        let statement : Statement :=
          { instruction := lex0, instruction_span := span0,
            arguments := lexrest.map Prod.fst,
            argument_spans := lexrest.map Prod.snd,
            line_number := line_index + 1, line := line }
        if starts_with line "." then
          match parse_statement statement labels with
          | Except.error e => some (Except.error e)
          | Except.ok bytes =>
            first_pass_go rest labels (unresolved ++ [statement])
              (address + bytes.length)
        else
          first_pass_go rest labels (unresolved ++ [statement]) (address + 2)

/-- Function `first_pass`. -/
def first_pass (source : String) :
    Option (Except Error (SymbolTable × List Statement)) :=
  first_pass_go (lines source).enum [] [] 0

/-- Function `second_pass` (the Rust code collects per-statement byte
vectors and flattens them; the concatenation is fused here). -/
def second_pass (symbol_table : SymbolTable) :
    List Statement → Except Error (List Nat)
  | [] => Except.ok []
  | st :: rest => do
    let bytes ← parse_statement st symbol_table
    let more ← second_pass symbol_table rest
    return bytes ++ more

/-- Function `assemble`; the outer `Option` models a Rust panic inside
`first_pass`. -/
def assemble (source : String) : Option (Except Error (List Nat)) :=
  match first_pass (preprocess source) with
  | none => none
  | some (Except.error e) => some (Except.error e)
  | some (Except.ok (symbol_table, unresolved)) =>
    some (second_pass symbol_table unresolved)

/-! The disassembler, `src/bin/disassembler.rs`. -/

/-- Upper-case hexadecimal digit. -/
def hex_char (n : Nat) : Char :=
  if n < 10 then Char.ofNat ('0'.toNat + n) else Char.ofNat ('A'.toNat + n - 10)

/-- Hexadecimal digit accumulation, least significant digit handled
first; the structural `fuel` bounds the digit count and `n` itself is
always enough of it. -/
def hex_digits_go : Nat → Nat → List Char → List Char
  | 0, _, acc => acc
  | fuel + 1, n, acc =>
    if n = 0 then acc else hex_digits_go fuel (n / 16) (hex_char (n % 16) :: acc)

/-- Hexadecimal digits of a number, most significant first (empty for 0). -/
def hex_digits (n : Nat) : List Char :=
  hex_digits_go n n []

/-- Rust `format!` `{:0wX}` formatting: upper-case hex, zero-padded to
width `w` (`{:X}` is width 1). -/
def hex_pad (width n : Nat) : String :=
  let ds := hex_digits n
  (List.replicate (width - ds.length) '0' ++ ds).asString

/-- Function `decode_instruction`: reverse-map one opcode to its assembly
line. -/
def decode_instruction (opcode : Nat) : String :=
  let nnn := opcode &&& 0x0FFF
  let kk := opcode &&& 0x00FF
  let x := (opcode &&& 0x0F00) >>> 8
  let y := (opcode &&& 0x00F0) >>> 4
  let n := opcode &&& 0x000F
  match ((opcode &&& 0xF000) >>> 12, (opcode &&& 0x0F00) >>> 8,
         (opcode &&& 0x00F0) >>> 4, opcode &&& 0x000F) with
  | (0x0, 0x0, 0xE, 0x0) => "CLS"
  | (0x0, 0x0, 0xE, 0xE) => "RET"
  | (0x0, _, _, _) => "SYS 0x" ++ hex_pad 3 nnn
  | (0x1, _, _, _) => "JP 0x" ++ hex_pad 3 nnn
  | (0x2, _, _, _) => "CALL 0x" ++ hex_pad 3 nnn
  | (0x3, _, _, _) => "SE V" ++ hex_pad 1 x ++ ", 0x" ++ hex_pad 2 kk
  | (0x4, _, _, _) => "SNE V" ++ hex_pad 1 x ++ ", 0x" ++ hex_pad 2 kk
  | (0x5, _, _, 0x0) => "SE V" ++ hex_pad 1 x ++ ", V" ++ hex_pad 1 y
  | (0x6, _, _, _) => "LD V" ++ hex_pad 1 x ++ ", 0x" ++ hex_pad 2 kk
  | (0x7, _, _, _) => "ADD V" ++ hex_pad 1 x ++ ", 0x" ++ hex_pad 2 kk
  | (0x8, _, _, 0x0) => "LD V" ++ hex_pad 1 x ++ ", V" ++ hex_pad 1 y
  | (0x8, _, _, 0x1) => "OR V" ++ hex_pad 1 x ++ ", V" ++ hex_pad 1 y
  | (0x8, _, _, 0x2) => "AND V" ++ hex_pad 1 x ++ ", V" ++ hex_pad 1 y
  | (0x8, _, _, 0x3) => "XOR V" ++ hex_pad 1 x ++ ", V" ++ hex_pad 1 y
  | (0x8, _, _, 0x4) => "ADD V" ++ hex_pad 1 x ++ ", V" ++ hex_pad 1 y
  | (0x8, _, _, 0x5) => "SUB V" ++ hex_pad 1 x ++ ", V" ++ hex_pad 1 y
  | (0x8, _, _, 0x6) => "SHR V" ++ hex_pad 1 x
  | (0x8, _, _, 0x7) => "SUBN V" ++ hex_pad 1 x ++ ", V" ++ hex_pad 1 y
  | (0x8, _, _, 0xE) => "SHL V" ++ hex_pad 1 x
  | (0x9, _, _, 0x0) => "SNE V" ++ hex_pad 1 x ++ ", V" ++ hex_pad 1 y
  | (0xA, _, _, _) => "LD I, 0x" ++ hex_pad 3 nnn
  | (0xB, _, _, _) => "JP V0, 0x" ++ hex_pad 3 nnn
  | (0xC, _, _, _) => "RND V" ++ hex_pad 1 x ++ ", 0x" ++ hex_pad 2 kk
  | (0xD, _, _, _) =>
    "DRW V" ++ hex_pad 1 x ++ ", V" ++ hex_pad 1 y ++ ", " ++ toString n
  | (0xE, _, 0x9, 0xE) => "SKP V" ++ hex_pad 1 x
  | (0xE, _, 0xA, 0x1) => "SKNP V" ++ hex_pad 1 x
  | (0xF, _, 0x0, 0x7) => "LD V" ++ hex_pad 1 x ++ ", DT"
  | (0xF, _, 0x0, 0xA) => "LD V" ++ hex_pad 1 x ++ ", K"
  | (0xF, _, 0x1, 0x5) => "LD DT, V" ++ hex_pad 1 x
  | (0xF, _, 0x1, 0x8) => "LD ST, V" ++ hex_pad 1 x
  | (0xF, _, 0x1, 0xE) => "ADD I, V" ++ hex_pad 1 x
  | (0xF, _, 0x2, 0x9) => "LD F, V" ++ hex_pad 1 x
  | (0xF, _, 0x3, 0x3) => "LD B, V" ++ hex_pad 1 x
  | (0xF, _, 0x5, 0x5) => "LD [I], V" ++ hex_pad 1 x
  | (0xF, _, 0x6, 0x5) => "LD V" ++ hex_pad 1 x ++ ", [I]"
  | _ => ".word 0x" ++ hex_pad 4 opcode

/-- Function `disassemble`: decode consecutive big-endian 2-byte words; a
trailing odd byte becomes `.byte`. -/
def disassemble : List Nat → String
  | [] => ""
  | [b] => ".byte 0x" ++ hex_pad 2 b ++ "\n"
  | hi :: lo :: rest =>
    decode_instruction ((hi <<< 8) ||| lo) ++ "\n" ++ disassemble rest

/-- A concrete statement `.byte 0x1FF` exactly as the first pass lexes
it, for exercising `parse_number`. -/
def stmt_byte_narrow : Statement :=
  { instruction := ".byte", instruction_span := ⟨0, 5⟩,
    arguments := ["0x1FF"], argument_spans := [⟨6, 11⟩],
    line_number := 1, line := ".byte 0x1FF" }

/-- A concrete statement `JP start` exactly as the first pass lexes it,
for exercising `parse_label`. -/
def stmt_jp_start : Statement :=
  { instruction := "JP", instruction_span := ⟨0, 2⟩,
    arguments := ["start"], argument_spans := [⟨3, 8⟩],
    line_number := 2, line := "JP start" }

end Assembler

namespace Interpreter

/-! ### Display-invariant lemmas for `draw_sprite` -/

/-- XOR of two pixel values in {0, 0xFF} is again in {0, 0xFF}. -/
lemma xor_pixel_mem {a b : Nat} (ha : a = 0 ∨ a = 255) (hb : b = 0 ∨ b = 255) :
    a ^^^ b = 0 ∨ a ^^^ b = 255 := by
  rcases ha with h | h <;> rcases hb with h2 | h2 <;> subst h <;> subst h2 <;> decide

/-- The inner sprite loop keeps every display cell in {0, 0xFF}. -/
lemma draw_sprite_bits_pixels (sprite_byte x y_coord : Nat) (bits : List Nat) :
    ∀ (acc : (Nat → Nat → Nat) × Nat),
    (∀ j i, acc.1 j i = 0 ∨ acc.1 j i = 255) →
    ∀ j i, (draw_sprite_bits sprite_byte x y_coord bits acc).1 j i = 0 ∨
      (draw_sprite_bits sprite_byte x y_coord bits acc).1 j i = 255 := by
  induction bits with
  | nil => intro acc hd; simpa [draw_sprite_bits] using hd
  | cons bit rest ih =>
    intro acc hd
    obtain ⟨d, vf⟩ := acc
    simp only [draw_sprite_bits]
    split
    · exact hd
    · apply ih
      intro j i
      simp only [upd2]
      split
      · refine xor_pixel_mem (hd _ _) ?_
        split
        · left; rfl
        · right; rfl
      · exact hd j i

/-- The outer sprite loop keeps every display cell in {0, 0xFF}. -/
lemma draw_sprite_rows_pixels (ram : Nat → Nat) (reg_i x y : Nat) (rows : List Nat) :
    ∀ (acc res : (Nat → Nat → Nat) × Nat),
    draw_sprite_rows ram reg_i x y rows acc = some res →
    (∀ j i, acc.1 j i = 0 ∨ acc.1 j i = 255) →
    ∀ j i, res.1 j i = 0 ∨ res.1 j i = 255 := by
  induction rows with
  | nil =>
    intro acc res h hd
    simp only [draw_sprite_rows] at h
    cases h
    exact hd
  | cons row rest ih =>
    intro acc res h hd
    obtain ⟨d, vf⟩ := acc
    simp only [draw_sprite_rows] at h
    split at h
    · cases h; exact hd
    · split at h
      · exact absurd h (by simp)
      · exact ih _ _ h (draw_sprite_bits_pixels _ _ _ _ _ hd)

/-- `draw_sprite` keeps every display cell in {0, 0xFF}. -/
lemma draw_sprite_pixels (vm : VM) (x y n : Nat) (vm' : VM)
    (h : draw_sprite vm x y n = some vm')
    (hd : ∀ j i, vm.display j i = 0 ∨ vm.display j i = 255) :
    ∀ j i, vm'.display j i = 0 ∨ vm'.display j i = 255 := by
  simp only [draw_sprite] at h
  split at h
  · next display vf heq =>
    cases h
    exact fun j i => draw_sprite_rows_pixels _ _ _ _ _ _ _ heq hd j i
  · exact absurd h (by simp)

/-- `pop` leaves the display untouched. -/
lemma pop_display {vm : VM} {value : Nat} {vm' : VM} (h : pop vm = some (value, vm')) :
    vm'.display = vm.display := by
  unfold pop at h
  split at h
  · exact absurd h (by simp)
  · split at h
    · simp only [Option.some_inj, Prod.mk.injEq] at h
      rw [← h.2]
    · exact absurd h (by simp)

/-- `push` leaves the display untouched. -/
lemma push_display {vm : VM} {value : Nat} {vm' : VM} (h : push vm value = some vm') :
    vm'.display = vm.display := by
  unfold push at h
  split at h
  · cases h; rfl
  · exact absurd h (by simp)

/-- The `Fx55` loop leaves the display untouched. -/
lemma fx55_go_display (l : List Nat) : ∀ (vm vm' : VM),
    fx55_go vm l = some vm' → vm'.display = vm.display := by
  induction l with
  | nil => intro vm vm' h; cases h; rfl
  | cons i rest ih =>
    intro vm vm' h
    simp only [fx55_go] at h
    split at h
    · have h2 := ih _ _ h
      exact h2
    · exact absurd h (by simp)

/-- The `Fx65` loop leaves the display untouched. -/
lemma fx65_go_display (l : List Nat) : ∀ (vm vm' : VM),
    fx65_go vm l = some vm' → vm'.display = vm.display := by
  induction l with
  | nil => intro vm vm' h; cases h; rfl
  | cons i rest ih =>
    intro vm vm' h
    simp only [fx65_go] at h
    split at h
    · have h2 := ih _ _ h
      exact h2
    · exact absurd h (by simp)

/-! ### Claim C1 -/

/-- C1 (code bug): executing `Dxyn` — here `D001`, drawing the one-row
sprite `0x80` at the origin — on a display whose pixel (0, 0) is on turns
that pixel off, yet leaves `VF = 0`.  The collision test
`*screen_pixel == 1 && sprite_pixel == 1` in `draw_sprite` can never hold,
because three lines above `sprite_pixel` is constructed to be `0` or
`0xFF`, so `VF` is never raised to 1 and the "VF = 1 iff at least one
on-pixel was flipped off" half of the claim fails on the code. -/
theorem C1_collision_flag_never_raised :
    vm_pixel_on.display 0 0 = 0xFF ∧
    (execute keys0 0 vm_pixel_on 0xD001).map
      (fun vm => (vm.display 0 0, vm.reg 0xF)) = some (0, 0) := by
  constructor
  · rfl
  · decide

/-! ### Claim C2 -/

/-- C2 fails as stated: after `Dxyn` on an all-dark display the freshly
drawn pixel holds `0xFF = 255`, which is neither 0 nor 1. -/
theorem C2_counterexample :
    (execute keys0 0 vm_dark 0xD001).map (fun vm => vm.display 0 0) = some 255 ∧
    ¬ ((255 : Nat) = 0 ∨ (255 : Nat) = 1) := by
  constructor
  · decide
  · decide

/-- C2 amended: every opcode that completes preserves the invariant
`display[y][x] ∈ {0, 0xFF}` (the interpreter's on-value is `0xFF`, the
grayscale byte fed to the SDL texture, not 1); in particular `Dxyn` XORs
cells with `0` or `0xFF` and `00E0` zeroes the display. -/
theorem C2_display_pixel_invariant (keys : Nat → Bool) (rand : Nat) (vm : VM)
    (opcode : Nat) (vm' : VM)
    (hd : ∀ j i, vm.display j i = 0 ∨ vm.display j i = 255)
    (h : execute keys rand vm opcode = some vm') :
    ∀ j i, vm'.display j i = 0 ∨ vm'.display j i = 255 := by
  simp only [execute] at h
  split at h
  · -- 0x0000 family: 00E0, 00EE, fatal 0nnn
    split at h
    · cases h; intro j i; left; rfl
    · split at h
      · next value vm1 heq =>
        cases h
        intro j i
        have h2 : vm1.display = vm.display := pop_display heq
        show vm1.display j i = 0 ∨ vm1.display j i = 255
        rw [h2]; exact hd j i
      · exact absurd h (by simp)
    · exact absurd h (by simp)
  · cases h; exact hd  -- 1nnn
  · -- 2nnn
    split at h
    · next vm1 heq =>
      cases h
      intro j i
      have h2 : vm1.display = vm.display := push_display heq
      show vm1.display j i = 0 ∨ vm1.display j i = 255
      rw [h2]; exact hd j i
    · exact absurd h (by simp)
  · cases h; intro j i; split <;> exact hd j i  -- 3xnn
  · cases h; intro j i; split <;> exact hd j i  -- 4xnn
  · cases h; intro j i; split <;> exact hd j i  -- 5xy0
  · cases h; exact hd  -- 6xnn
  · cases h; exact hd  -- 7xnn
  · -- 8xy_ family
    split at h <;>
      first
      | (cases h; exact hd)
      | (revert h
         cases instDecidableEqNat ((opcode &&& 0x0F00) >>> 8) 0xF <;>
           intro h <;> cases h <;> exact hd)
  · cases h; intro j i; split <;> exact hd j i  -- 9xy0
  · cases h; exact hd  -- Annn
  · cases h; exact hd  -- Bnnn
  · cases h; exact hd  -- Cxnn
  · exact draw_sprite_pixels _ _ _ _ _ h hd  -- Dxyn
  · -- Ex__ family
    split at h <;>
      first
      | (cases h; exact hd)
      | (split at h <;> first | (cases h; exact hd) | exact absurd h (by simp))
  · -- Fx__ family
    split at h <;>
      first
      | (cases h; exact hd)
      | (split at h <;> first | (cases h; exact hd) | exact absurd h (by simp))
      | (intro j i
         rw [fx55_go_display _ _ _ h]
         exact hd j i)
      | (intro j i
         rw [fx65_go_display _ _ _ h]
         exact hd j i)
  · cases h; exact hd  -- unreachable catch-all

/-- Witness for C2: a `6xnn` load on the dark machine keeps pixel (3, 5)
in {0, 0xFF}. -/
theorem C2_display_pixel_invariant_witness :
    ({ vm_dark with reg := upd vm_dark.reg 0 0 } : VM).display 3 5 = 0 ∨
    ({ vm_dark with reg := upd vm_dark.reg 0 0 } : VM).display 3 5 = 255 :=
  C2_display_pixel_invariant keys0 0 vm_dark 0x6000 _
    (fun _ _ => Or.inl rfl) rfl 3 5

/-! ### Claim C4 -/

/-- C4 fails as stated: the opcodes 0x8008, 0xE0FF and 0xF099 match no row
of the encoding table, yet executing them is not a fatal fault — the
interpreter returns the machine state unchanged and continues with the
next instruction. -/
theorem C4_counterexample :
    execute keys0 0 vm_dark 0x8008 = some vm_dark ∧
    execute keys0 0 vm_dark 0xE0FF = some vm_dark ∧
    execute keys0 0 vm_dark 0xF099 = some vm_dark :=
  ⟨rfl, rfl, rfl⟩

/-- C4 amended: only `0nnn` opcodes other than 00E0/00EE are fatal faults
(the `panic!` with a diagnostic message); any opcode of the 8xy_, Ex__ and
Fx__ families that matches no row of the encoding table is silently
ignored, execution continuing to the next instruction with the machine
state unchanged. -/
theorem C4_unknown_opcodes (keys : Nat → Bool) (rand : Nat) (vm : VM) (opcode : Nat) :
    (opcode &&& 0xF000 = 0x0000 → opcode ≠ 0x00E0 → opcode ≠ 0x00EE →
      execute keys rand vm opcode = none) ∧
    (opcode &&& 0xF000 = 0x8000 → 8 ≤ opcode &&& 0x000F → opcode &&& 0x000F ≠ 0xE →
      execute keys rand vm opcode = some vm) ∧
    (opcode &&& 0xF000 = 0xE000 → opcode &&& 0x00FF ≠ 0x9E → opcode &&& 0x00FF ≠ 0xA1 →
      execute keys rand vm opcode = some vm) ∧
    (opcode &&& 0xF000 = 0xF000 →
      opcode &&& 0x00FF ≠ 0x07 → opcode &&& 0x00FF ≠ 0x0A → opcode &&& 0x00FF ≠ 0x15 →
      opcode &&& 0x00FF ≠ 0x18 → opcode &&& 0x00FF ≠ 0x1E → opcode &&& 0x00FF ≠ 0x29 →
      opcode &&& 0x00FF ≠ 0x33 → opcode &&& 0x00FF ≠ 0x55 → opcode &&& 0x00FF ≠ 0x65 →
      execute keys rand vm opcode = some vm) := by
  refine ⟨?_, ?_, ?_, ?_⟩
  · intro h h1 h2
    simp only [execute, h]
  · intro h h1 h2
    simp only [execute, h]
    split <;> first | rfl | omega
  · intro h h1 h2
    simp only [execute, h]
  · intro h h1 h2 h3 h4 h5 h6 h7 h8 h9
    simp only [execute, h]

/-- Witness for C4: a `0nnn` opcode panics; one unmatched opcode of each
other family is a no-op. -/
theorem C4_unknown_opcodes_witness :
    execute keys0 0 vm_dark 0x0123 = none ∧
    execute keys0 0 vm_dark 0x800A = some vm_dark ∧
    execute keys0 0 vm_dark 0xE011 = some vm_dark ∧
    execute keys0 0 vm_dark 0xF0FF = some vm_dark :=
  ⟨(C4_unknown_opcodes keys0 0 vm_dark 0x0123).1 (by decide) (by decide) (by decide),
   (C4_unknown_opcodes keys0 0 vm_dark 0x800A).2.1 (by decide) (by decide) (by decide),
   (C4_unknown_opcodes keys0 0 vm_dark 0xE011).2.2.1 (by decide) (by decide) (by decide),
   (C4_unknown_opcodes keys0 0 vm_dark 0xF0FF).2.2.2 (by decide) (by decide) (by decide)
     (by decide) (by decide) (by decide) (by decide) (by decide) (by decide) (by decide)⟩

/-! ### Claim C5 -/

/-- C5 fails as stated for x = 0xF: executing `8F04` on a machine with
`VF = 5` and `V0 = 5` leaves `VF = 0` (the carry, written after the sum,
overwrites it), while the claim demands `Vx = VF = (5 + 5) mod 256 = 10`. -/
theorem C5_counterexample :
    (execute keys0 0 vm_add_alias 0x8F04).map (fun vm => vm.reg 0xF) = some 0 ∧
    (5 + 5) % 256 = 10 ∧ (0 : Nat) ≠ 10 :=
  ⟨by decide, by decide, by decide⟩

/-- C5 amended: after `8xy4` the flag register holds the carry — `VF = 1`
iff `old_Vx + old_Vy ≥ 256`, computed from the pre-instruction values even
when `x = 0xF` — and for `x ≠ 0xF` the register `Vx` holds
`(old_Vx + old_Vy) mod 256`; when `x = 0xF` the carry overwrites the sum.
All other registers are unchanged. -/
theorem C5_add_with_carry (keys : Nat → Bool) (rand : Nat) (vm : VM) (opcode : Nat)
    (hf : opcode &&& 0xF000 = 0x8000) (hn : opcode &&& 0x000F = 0x4) :
    ((execute keys rand vm opcode).map (fun v => v.reg 0xF) =
      some (if 256 ≤ vm.reg ((opcode &&& 0x0F00) >>> 8) + vm.reg ((opcode &&& 0x00F0) >>> 4)
            then 1 else 0)) ∧
    ((opcode &&& 0x0F00) >>> 8 ≠ 0xF →
      (execute keys rand vm opcode).map (fun v => v.reg ((opcode &&& 0x0F00) >>> 8)) =
        some ((vm.reg ((opcode &&& 0x0F00) >>> 8) + vm.reg ((opcode &&& 0x00F0) >>> 4)) % 256)) ∧
    (∀ i, i ≠ (opcode &&& 0x0F00) >>> 8 → i ≠ 0xF →
      (execute keys rand vm opcode).map (fun v => v.reg i) = some (vm.reg i)) := by
  refine ⟨?_, ?_, ?_⟩
  · simp only [execute, hf, hn]
    simp [upd]
  · intro hx
    simp only [execute, hf, hn]
    simp [upd, hx]
  · intro i hix hiF
    simp only [execute, hf, hn]
    simp [upd, hix, hiF]

/-- Witness for C5: `8014` on the machine with `V0 = 5`, `V1 = 0`. -/
theorem C5_add_with_carry_witness :
    (execute keys0 0 vm_add_alias 0x8014).map (fun v => v.reg 0) = some 5 := by
  have h := (C5_add_with_carry keys0 0 vm_add_alias 0x8014
    (by decide) (by decide)).2.1 (by decide)
  have hx : (0x8014 &&& 0x0F00) >>> 8 = 0 := by decide
  have hy : (0x8014 &&& 0x00F0) >>> 4 = 1 := by decide
  simp only [hx, hy] at h
  rw [h]
  decide

/-! ### Claim C6 -/

/-- C6 confirmed: `8xy6` first copies Vy into Vx; when x = 0xF the final
flag value is `Vy & 1` (the masked copy, with no separate VF write),
otherwise `VF = Vy & 1` (the low bit of the value just copied into Vx) and
`Vx = Vy >> 1`.  `8xyE` copies Vy into Vx, sets `VF = (Vy >> 7) & 1`, and
shifts Vx left by 1 (mod 256) only when x ≠ 0xF.  Registers other than Vx
and VF are untouched. -/
theorem C6_shift_quirks (keys : Nat → Bool) (rand : Nat) (vm : VM) (opcode : Nat)
    (hf : opcode &&& 0xF000 = 0x8000) :
    (opcode &&& 0x000F = 0x6 →
      ((opcode &&& 0x0F00) >>> 8 = 0xF →
        (execute keys rand vm opcode).map (fun v => v.reg 0xF) =
          some (vm.reg ((opcode &&& 0x00F0) >>> 4) &&& 1)) ∧
      ((opcode &&& 0x0F00) >>> 8 ≠ 0xF →
        ((execute keys rand vm opcode).map (fun v => v.reg ((opcode &&& 0x0F00) >>> 8)) =
          some (vm.reg ((opcode &&& 0x00F0) >>> 4) >>> 1)) ∧
        ((execute keys rand vm opcode).map (fun v => v.reg 0xF) =
          some (vm.reg ((opcode &&& 0x00F0) >>> 4) &&& 1))) ∧
      (∀ i, i ≠ (opcode &&& 0x0F00) >>> 8 → i ≠ 0xF →
        (execute keys rand vm opcode).map (fun v => v.reg i) = some (vm.reg i))) ∧
    (opcode &&& 0x000F = 0xE →
      ((execute keys rand vm opcode).map (fun v => v.reg 0xF) =
        some ((vm.reg ((opcode &&& 0x00F0) >>> 4) &&& 0x80) >>> 7)) ∧
      ((opcode &&& 0x0F00) >>> 8 ≠ 0xF →
        (execute keys rand vm opcode).map (fun v => v.reg ((opcode &&& 0x0F00) >>> 8)) =
          some ((vm.reg ((opcode &&& 0x00F0) >>> 4) <<< 1) % 256)) ∧
      (∀ i, i ≠ (opcode &&& 0x0F00) >>> 8 → i ≠ 0xF →
        (execute keys rand vm opcode).map (fun v => v.reg i) = some (vm.reg i))) := by
  constructor
  · intro hn
    refine ⟨?_, ?_, ?_⟩
    · intro hx
      simp only [execute, hf, hn, hx]
      simp [upd]
    · intro hx
      constructor
      · simp only [execute, hf, hn]
        rw [if_neg hx]
        simp [upd, hx]
      · simp only [execute, hf, hn]
        rw [if_neg hx]
        simp [upd, hx]
        exact fun hcontr => absurd hcontr.symm hx
    · intro i hix hiF
      by_cases hx : (opcode &&& 0x0F00) >>> 8 = 0xF
      · simp only [execute, hf, hn, hx]
        simp [upd, hiF]
      · simp only [execute, hf, hn]
        rw [if_neg hx]
        simp [upd, hix, hiF]
  · intro hn
    refine ⟨?_, ?_, ?_⟩
    · by_cases hx : (opcode &&& 0x0F00) >>> 8 = 0xF
      · simp only [execute, hf, hn, hx]
        rw [if_neg (show ¬((15 : Nat) ≠ 15) by decide)]
        simp [upd]
      · simp only [execute, hf, hn]
        rw [if_pos hx]
        simp [upd, hx]
        exact fun hcontr => absurd hcontr.symm hx
    · intro hx
      simp only [execute, hf, hn]
      rw [if_pos hx]
      simp [upd, hx]
    · intro i hix hiF
      by_cases hx : (opcode &&& 0x0F00) >>> 8 = 0xF
      · simp only [execute, hf, hn, hx]
        rw [if_neg (show ¬((15 : Nat) ≠ 15) by decide)]
        simp [upd, hiF]
      · simp only [execute, hf, hn]
        rw [if_pos hx]
        simp [upd, hix, hiF]

/-- Witness for C6: `8126` and `812E` on the machine with `V2 = 5`
(i.e. x = 1, y = 2). -/
theorem C6_shift_quirks_witness :
    ((execute keys0 0 vm_add_alias 0x8126).map (fun v => v.reg 1) =
      some (vm_add_alias.reg 2 >>> 1)) ∧
    ((execute keys0 0 vm_add_alias 0x812E).map (fun v => v.reg 1) =
      some ((vm_add_alias.reg 2 <<< 1) % 256)) :=
  ⟨(((C6_shift_quirks keys0 0 vm_add_alias 0x8126 (by decide)).1
      (by decide)).2.1 (by decide)).1,
   (((C6_shift_quirks keys0 0 vm_add_alias 0x812E (by decide)).2
      (by decide)).2.1 (by decide))⟩

/-! ### Claim C7 -/

/-- Keypad key values produced by the scancode map are below 16. -/
lemma scancode_to_chip8_key_lt {sc : Scancode} {k : Nat}
    (h : scancode_to_chip8_key sc = some k) : k < 16 := by
  cases sc <;> simp [scancode_to_chip8_key] at h <;> omega

/-- Keypad key values reported by `event_release` are below 16. -/
lemma event_release_lt {event : Event} {k : Nat}
    (h : event_release event = some k) : k < 16 := by
  cases event with
  | keyDown sc => simp [event_release] at h
  | other => simp [event_release] at h
  | keyUp sc =>
    cases sc with
    | none => simp [event_release] at h
    | some s =>
      simp only [event_release] at h
      exact scancode_to_chip8_key_lt h

/-- The key reported by `first_release` is below 16. -/
lemma first_release_lt (events : List Event) : ∀ k, first_release events = some k → k < 16 := by
  induction events with
  | nil => intro k h; simp [first_release] at h
  | cons ev rest ih =>
    intro k h
    simp only [first_release, List.findSome?] at h
    split at h
    · next heq =>
      cases h
      exact event_release_lt heq
    · exact ih k (by simpa [first_release] using h)

/-- An event that releases no keypad key can only change `running`. -/
lemma process_event_no_release {vm : VM} {event : Event}
    (h : event_release event = none) :
    (process_event vm event).reg = vm.reg ∧
    (process_event vm event).waiting_for_key = vm.waiting_for_key ∧
    (process_event vm event).pc = vm.pc ∧
    (process_event vm event).ram = vm.ram ∧
    (process_event vm event).delay_timer = vm.delay_timer ∧
    (process_event vm event).sound_timer = vm.sound_timer := by
  cases event with
  | keyDown sc =>
    cases sc with
    | none => simp [process_event]
    | some s => cases s <;> simp [process_event]
  | keyUp sc =>
    cases sc with
    | none => simp [process_event]
    | some s =>
      simp only [event_release] at h
      cases hw : vm.waiting_for_key with
      | none => simp [process_event, hw]
      | some r => simp [process_event, hw, h]
  | other => simp [process_event]

/-- With no wait pending, an event leaves registers, the wait state, `pc`
and RAM alone. -/
lemma process_event_not_waiting {vm : VM} {event : Event}
    (h : vm.waiting_for_key = none) :
    (process_event vm event).reg = vm.reg ∧
    (process_event vm event).waiting_for_key = none ∧
    (process_event vm event).pc = vm.pc ∧
    (process_event vm event).ram = vm.ram := by
  cases event with
  | keyDown sc =>
    cases sc with
    | none => simp [process_event, h]
    | some s => cases s <;> simp [process_event, h]
  | keyUp sc =>
    cases sc with
    | none => simp [process_event, h]
    | some s => simp [process_event, h]
  | other => simp [process_event, h]

/-- An event that releases keypad key `k` while register `r` waits for a
key writes `k` into `Vr` and clears the wait. -/
lemma process_event_release {vm : VM} {event : Event} {r k : Nat}
    (hw : vm.waiting_for_key = some r) (h : event_release event = some k) :
    process_event vm event =
      { vm with reg := upd vm.reg r k, waiting_for_key := none } := by
  cases event with
  | keyDown sc => simp [event_release] at h
  | other => simp [event_release] at h
  | keyUp sc =>
    cases sc with
    | none => simp [event_release] at h
    | some s =>
      simp only [event_release] at h
      simp [process_event, hw, h]

/-- Folding events over a machine with no pending wait leaves registers,
the wait state, `pc` and RAM alone. -/
lemma foldl_process_event_not_waiting (events : List Event) : ∀ (vm : VM),
    vm.waiting_for_key = none →
    ((events.foldl process_event vm).reg = vm.reg ∧
     (events.foldl process_event vm).waiting_for_key = none ∧
     (events.foldl process_event vm).pc = vm.pc ∧
     (events.foldl process_event vm).ram = vm.ram) := by
  induction events with
  | nil => intro vm h; exact ⟨rfl, h, rfl, rfl⟩
  | cons ev rest ih =>
    intro vm h
    simp only [List.foldl_cons]
    obtain ⟨p1, p2, p3, p4⟩ := @process_event_not_waiting vm ev h
    obtain ⟨g1, g2, g3, g4⟩ := ih _ p2
    exact ⟨g1.trans p1, g2, g3.trans p3, g4.trans p4⟩

/-- Folding a batch with no recognized key release over a waiting machine
keeps the wait pending and the registers, `pc`, RAM and timers unchanged. -/
lemma foldl_process_event_waiting (events : List Event) : ∀ (vm : VM) (r : Nat),
    vm.waiting_for_key = some r → first_release events = none →
    ((events.foldl process_event vm).reg = vm.reg ∧
     (events.foldl process_event vm).waiting_for_key = some r ∧
     (events.foldl process_event vm).pc = vm.pc ∧
     (events.foldl process_event vm).ram = vm.ram ∧
     (events.foldl process_event vm).delay_timer = vm.delay_timer ∧
     (events.foldl process_event vm).sound_timer = vm.sound_timer) := by
  induction events with
  | nil => intro vm r h _; exact ⟨rfl, h, rfl, rfl, rfl, rfl⟩
  | cons ev rest ih =>
    intro vm r h hrel
    simp only [first_release, List.findSome?] at hrel
    split at hrel
    · exact absurd hrel (by simp)
    · next heq =>
      simp only [List.foldl_cons]
      obtain ⟨p1, p2, p3, p4, p5, p6⟩ := @process_event_no_release vm ev heq
      obtain ⟨g1, g2, g3, g4, g5, g6⟩ :=
        ih _ r (p2.trans h) (by simpa [first_release] using hrel)
      exact ⟨g1.trans p1, g2, g3.trans p3, g4.trans p4, g5.trans p5, g6.trans p6⟩

/-- Folding a batch whose first recognized key release carries key `k`
over a machine waiting on register `r` writes `k` into `Vr`, clears the
wait, and leaves every other register, `pc` and RAM unchanged. -/
lemma foldl_process_event_resolve (events : List Event) : ∀ (vm : VM) (r k : Nat),
    vm.waiting_for_key = some r → first_release events = some k →
    ((events.foldl process_event vm).reg r = k ∧
     (events.foldl process_event vm).waiting_for_key = none ∧
     (∀ i, i ≠ r → (events.foldl process_event vm).reg i = vm.reg i) ∧
     (events.foldl process_event vm).pc = vm.pc ∧
     (events.foldl process_event vm).ram = vm.ram) := by
  induction events with
  | nil => intro vm r k h hrel; exact absurd hrel (by simp [first_release])
  | cons ev rest ih =>
    intro vm r k h hrel
    simp only [first_release, List.findSome?] at hrel
    split at hrel
    · next heq =>
      cases hrel
      simp only [List.foldl_cons]
      rw [process_event_release h heq]
      obtain ⟨g1, g2, g3, g4⟩ := foldl_process_event_not_waiting rest
        { vm with reg := upd vm.reg r k, waiting_for_key := none } rfl
      refine ⟨?_, g2, ?_, g3, g4⟩
      · rw [g1]; simp [upd]
      · intro i hir
        rw [g1]; simp [upd, hir]
    · next heq =>
      simp only [List.foldl_cons]
      obtain ⟨p1, p2, p3, p4, p5, p6⟩ := @process_event_no_release vm ev heq
      obtain ⟨g1, g2, g3, g4, g5⟩ :=
        ih _ r k (p2.trans h) (by simpa [first_release] using hrel)
      refine ⟨g1, g2, ?_, g4.trans p3, g5.trans p4⟩
      intro i hir
      rw [g3 i hir, p1]

/-- The timer update decrements each nonzero timer and touches nothing
else. -/
lemma timer_update_fields (vm : VM) :
    (timer_update vm).delay_timer =
      (if 0 < vm.delay_timer then vm.delay_timer - 1 else vm.delay_timer) ∧
    (timer_update vm).sound_timer =
      (if 1 ≤ vm.sound_timer then vm.sound_timer - 1 else vm.sound_timer) ∧
    (timer_update vm).reg = vm.reg ∧
    (timer_update vm).pc = vm.pc ∧
    (timer_update vm).ram = vm.ram ∧
    (timer_update vm).waiting_for_key = vm.waiting_for_key := by
  unfold timer_update
  by_cases h1 : 0 < vm.delay_timer <;> by_cases h2 : 1 ≤ vm.sound_timer <;>
    simp [h1, h2]

/-- C7 confirmed: (i) `Fx0A` only sets `waiting_for_key` to `Some x`;
(ii) a main-loop iteration entered with `waiting_for_key = Some r` whose
event batch contains no recognized key release skips the fetch/execute
step — `pc`, RAM and the registers are unchanged and the wait stays
pending — while the 60 Hz timer update and the event polling still run;
(iii) the wait resolves exactly on the first key-release event whose
scancode maps to a keypad key: that key's value (below 16) is written to
the waiting register, no other register changes, and the wait clears, so
later releases in the same batch are ignored. -/
theorem C7_fx0a_wait_semantics :
    (∀ (keys : Nat → Bool) (rand : Nat) (vm : VM) (opcode : Nat),
      opcode &&& 0xF000 = 0xF000 → opcode &&& 0x00FF = 0x0A →
      execute keys rand vm opcode =
        some { vm with waiting_for_key := some ((opcode &&& 0x0F00) >>> 8) }) ∧
    (∀ (keys : Nat → Bool) (rand : Nat) (timer_elapsed : Bool) (events : List Event)
        (vm : VM) (r : Nat),
      vm.waiting_for_key = some r → first_release events = none →
      ((mainloop_iteration keys rand timer_elapsed events vm).map (fun v => v.pc) =
        some vm.pc) ∧
      ((mainloop_iteration keys rand timer_elapsed events vm).map (fun v => v.ram) =
        some vm.ram) ∧
      ((mainloop_iteration keys rand timer_elapsed events vm).map (fun v => v.reg) =
        some vm.reg) ∧
      ((mainloop_iteration keys rand timer_elapsed events vm).map
          (fun v => v.waiting_for_key) = some (some r)) ∧
      ((mainloop_iteration keys rand timer_elapsed events vm).map
          (fun v => v.delay_timer) =
        some (if timer_elapsed = true ∧ 0 < vm.delay_timer then vm.delay_timer - 1
              else vm.delay_timer)) ∧
      ((mainloop_iteration keys rand timer_elapsed events vm).map
          (fun v => v.sound_timer) =
        some (if timer_elapsed = true ∧ 1 ≤ vm.sound_timer then vm.sound_timer - 1
              else vm.sound_timer))) ∧
    (∀ (events : List Event) (vm : VM) (r k : Nat),
      vm.waiting_for_key = some r → first_release events = some k →
      k < 16 ∧
      (events.foldl process_event vm).reg r = k ∧
      (events.foldl process_event vm).waiting_for_key = none ∧
      (∀ i, i ≠ r → (events.foldl process_event vm).reg i = vm.reg i)) := by
  refine ⟨?_, ?_, ?_⟩
  · intro keys rand vm opcode hf hn
    simp only [execute, hf, hn]
  · intro keys rand timer_elapsed events vm r hw hrel
    cases timer_elapsed with
    | false =>
      obtain ⟨g1, g2, g3, g4, g5, g6⟩ := foldl_process_event_waiting events vm r hw hrel
      unfold mainloop_iteration
      simp only [Bool.false_eq_true, if_false, g2, Option.isSome_some, if_true]
      simp [g1, g2, g3, g4, g5, g6]
    | true =>
      obtain ⟨td, ts, tr, tp, tm, tw⟩ := timer_update_fields vm
      obtain ⟨g1, g2, g3, g4, g5, g6⟩ :=
        foldl_process_event_waiting events (timer_update vm) r (tw.trans hw) hrel
      unfold mainloop_iteration
      simp only [if_true, g2, Option.isSome_some]
      simp [g1, g2, g3, g4, g5, g6, td, ts, tr, tp, tm]
  · intro events vm r k hw hrel
    obtain ⟨g1, g2, g3, g4, g5⟩ := foldl_process_event_resolve events vm r k hw hrel
    exact ⟨first_release_lt events k hrel, g1, g2, g3⟩

/-- Witness for C7: executing `F30A` on the dark machine starts a wait on
V3, and a batch consisting of one release of the Q key resolves it with
keypad key 4. -/
theorem C7_fx0a_wait_semantics_witness :
    (execute keys0 0 vm_dark 0xF30A =
      some { vm_dark with waiting_for_key := some ((0xF30A &&& 0x0F00) >>> 8) }) ∧
    (([Event.keyUp (some Scancode.q)].foldl process_event
        { vm_dark with waiting_for_key := some 3 }).reg 3 = 4) :=
  ⟨C7_fx0a_wait_semantics.1 keys0 0 vm_dark 0xF30A (by decide) (by decide),
   (C7_fx0a_wait_semantics.2.2 [Event.keyUp (some Scancode.q)]
      { vm_dark with waiting_for_key := some 3 } 3 4 rfl (by decide)).2.1⟩

/-! ### Claim C10 -/

/-- C10 confirmed: `load_program` with a program of length at most 3584
copies exactly the program bytes into `ram[0x200 .. 0x200+len)`, leaves
every other RAM cell — in particular the font area below `0x050` —
unchanged, and panics (rather than truncating) on any longer program. -/
theorem C10_load_program_bytes (vm : VM) (program : List Nat) :
    (∀ i, program.length ≤ 3584 → 0x200 ≤ i → i < 0x200 + program.length →
      (load_program vm program).map (fun v => v.ram i) =
        some (program.getD (i - 0x200) 0)) ∧
    (∀ i, program.length ≤ 3584 → (i < 0x200 ∨ 0x200 + program.length ≤ i) →
      (load_program vm program).map (fun v => v.ram i) = some (vm.ram i)) ∧
    (3584 < program.length → load_program vm program = none) := by
  refine ⟨?_, ?_, ?_⟩
  · intro i hlen hlo hhi
    rw [load_program, if_pos (by omega)]
    simp only [Option.map_some']
    rw [if_pos ⟨hlo, hhi⟩]
  · intro i hlen hout
    rw [load_program, if_pos (by omega)]
    simp only [Option.map_some']
    rw [if_neg (by omega)]
  · intro hlen
    rw [load_program, if_neg (by omega)]

/-- Witness for C10: loading the three-byte program `[0x12, 0x34, 0x56]`
into the dark machine. -/
theorem C10_load_program_bytes_witness :
    ((load_program vm_dark [0x12, 0x34, 0x56]).map (fun v => v.ram 0x201) =
      some ([0x12, 0x34, 0x56].getD (0x201 - 0x200) 0)) ∧
    ((load_program vm_dark [0x12, 0x34, 0x56]).map (fun v => v.ram 0x020) =
      some (vm_dark.ram 0x020)) :=
  ⟨(C10_load_program_bytes vm_dark [0x12, 0x34, 0x56]).1 0x201
      (by decide) (by decide) (by decide),
   (C10_load_program_bytes vm_dark [0x12, 0x34, 0x56]).2.1 0x020
      (by decide) (Or.inl (by decide))⟩

end Interpreter

namespace Assembler

/-! ### Lemmas about numeric literals -/

/-- The digit loop never exceeds `u16::MAX`. -/
lemma from_str_radix_go_le (radix : Nat) (cs : List Char) :
    ∀ acc v, acc ≤ 65535 → from_str_radix_go radix cs acc = some v → v ≤ 65535 := by
  induction cs with
  | nil =>
    intro acc v hacc h
    cases h
    exact hacc
  | cons c cs ih =>
    intro acc v hacc h
    simp only [from_str_radix_go] at h
    split at h
    · exact absurd h (by simp)
    · split at h
      · exact absurd h (by simp)
      · next hle => exact ih _ v (by omega) h

/-- `u16::from_str_radix` never returns a value above `u16::MAX`. -/
lemma from_str_radix_le (radix : Nat) (s : String) (v : Nat)
    (h : from_str_radix radix s = some v) : v ≤ 65535 := by
  unfold from_str_radix at h
  split at h
  · exact absurd h (by simp)
  · split at h
    · exact absurd h (by simp)
    · exact from_str_radix_go_le radix _ 0 v (by omega) h
  · exact from_str_radix_go_le radix _ 0 v (by omega) h

/-- Parsed numeric literals fit in 16 bits. -/
lemma parse_number_literal_le (lexeme : String) (v : Nat)
    (h : parse_number_literal lexeme = some v) : v ≤ 65535 := by
  unfold parse_number_literal at h
  split at h
  · exact from_str_radix_le 16 _ v h
  · split at h
    · exact from_str_radix_le 2 _ v h
    · exact from_str_radix_le 10 _ v h

/-- The overflow bound computed by `parse_number` is `2^max_n_bits - 1`. -/
lemma max_shift (max_n_bits : Nat) (h : max_n_bits ≤ 16) :
    65535 >>> (16 - max_n_bits) = 2 ^ max_n_bits - 1 := by
  interval_cases max_n_bits <;> decide

/-! ### Claim C3 -/

/-- C3 (code bug): assembling `SHR V0, V1` yields the bytes `80 16`, but
the disassembler prints that opcode as `SHR V0`, dropping the second
register, and the assembler rejects `SHR V0` with
`InvalidArgumentCount` (it requires exactly two registers), so the
disassembly of a valid program is not assemblable and the round-trip
property fails; `SHL` behaves the same way. -/
theorem C3_shr_shl_roundtrip_bug :
    assemble "SHR V0, V1" = some (Except.ok [0x80, 0x16]) ∧
    disassemble [0x80, 0x16] = "SHR V0\n" ∧
    assemble "SHR V0" =
      some (Except.error (Error.InvalidArgumentCount "SHR" 1 [2] [] 1 "SHR V0")) ∧
    assemble "SHL V0, V1" = some (Except.ok [0x80, 0x1E]) ∧
    disassemble [0x80, 0x1E] = "SHL V0\n" ∧
    assemble "SHL V0" =
      some (Except.error (Error.InvalidArgumentCount "SHL" 1 [2] [] 1 "SHL V0")) :=
  ⟨rfl, rfl, rfl, rfl, rfl, rfl⟩

/-! ### Claim C8 -/

/-- C8 fails as stated: the decimal literal `70000` exceeds `2^8` (indeed
`2^16`), yet assembling `.byte 70000` reports `InvalidArgument` — the
`u16` parse fails before the width check — not `ArgumentOverflow`. -/
theorem C8_counterexample :
    assemble ".byte 70000" =
      some (Except.error (Error.InvalidArgument "70000" ⟨6, 11⟩ 1 ".byte 70000")) ∧
    Error.is_argument_overflow
      (Error.InvalidArgument "70000" ⟨6, 11⟩ 1 ".byte 70000") = false ∧
    2 ^ 8 < 70000 :=
  ⟨rfl, rfl, by decide⟩

/-- C8 amended: `parse_number` succeeds exactly on literals that parse as
a Rust `u16` (so are below `2^16`) and are at most `2^max_n_bits - 1`; a
literal that parses as `u16` but exceeds that bound reports
`ArgumentOverflow`, while a literal that does not parse as `u16` —
including every numeric literal of value `2^16` or more — reports
`InvalidArgument` instead. -/
theorem C8_parse_number_bounds (st : Statement) (argument_index max_n_bits : Nat)
    (lexeme : String) (hbits : max_n_bits ≤ 16)
    (harg : st.argument argument_index = Except.ok lexeme) :
    (∀ v, parse_number_literal lexeme = some v → v ≤ 65535) ∧
    (∀ v, parse_number_literal lexeme = some v → v ≤ 2 ^ max_n_bits - 1 →
      st.parse_number argument_index max_n_bits = Except.ok v) ∧
    (∀ v, parse_number_literal lexeme = some v → 2 ^ max_n_bits - 1 < v →
      st.parse_number argument_index max_n_bits =
        Except.error (Error.ArgumentOverflow v
          (st.argument_spans.getD argument_index ⟨0, 0⟩) max_n_bits
          st.line_number st.line)) ∧
    (parse_number_literal lexeme = none →
      st.parse_number argument_index max_n_bits =
        Except.error (st.invalid_argument argument_index)) := by
  refine ⟨?_, ?_, ?_, ?_⟩
  · intro v hv
    exact parse_number_literal_le lexeme v hv
  · intro v hv hle
    simp only [Statement.parse_number, harg, hv]
    rw [max_shift max_n_bits hbits, if_neg (by omega)]
  · intro v hv hgt
    simp only [Statement.parse_number, harg, hv]
    rw [max_shift max_n_bits hbits, if_pos (by omega)]
  · intro hnone
    simp only [Statement.parse_number, harg, hnone]

/-- Witness for C8: `.byte 0x1FF` overflows the 8-bit field, and
`.byte 0x12` fits. -/
theorem C8_parse_number_bounds_witness :
    stmt_byte_narrow.parse_number 0 8 =
      Except.error (Error.ArgumentOverflow 511 ⟨6, 11⟩ 8 1 ".byte 0x1FF") := by
  have h := (C8_parse_number_bounds stmt_byte_narrow 0 8 "0x1FF"
    (by decide) rfl).2.2.1 511 rfl (by decide)
  exact h

/-! ### Claim C9 -/

/-- C9 confirmed: on `start:` + `JP start` the first pass stores the
ROM-relative address 0 for the program's first label, `parse_label` adds
the `0x200` loader offset at reference time (for any symbol table), and
the assembled output is exactly the bytes `12 00`. -/
theorem C9_label_rom_relative :
    (first_pass (preprocess "start:\n    JP start") =
      some (Except.ok ([("start", 0)],
        [{ instruction := "JP", instruction_span := ⟨0, 2⟩,
           arguments := ["start"], argument_spans := [⟨3, 8⟩],
           line_number := 2, line := "JP start" }]))) ∧
    (assemble "start:\n    JP start" = some (Except.ok [0x12, 0x00])) ∧
    (∀ (st : Statement) (argument_index : Nat) (table : SymbolTable)
        (name : String) (address : Nat),
      st.argument argument_index = Except.ok name →
      table.get name = some address →
      st.parse_label argument_index table = Except.ok (address + 0x200)) := by
  refine ⟨rfl, rfl, ?_⟩
  intro st argument_index table name address harg hget
  simp only [Statement.parse_label, harg, hget]

/-- Witness for C9: `JP start` against the one-entry table from the first
pass resolves to `0x200`. -/
theorem C9_label_rom_relative_witness :
    stmt_jp_start.parse_label 0 [("start", 0)] = Except.ok 0x200 := by
  have h := C9_label_rom_relative.2.2 stmt_jp_start 0 [("start", 0)] "start" 0 rfl rfl
  exact h

end Assembler

end Chip8
